import Mathlib

/- Verification of the MTG-Math mana-curve simulator: a shallow embedding of
   mtg_math/curve_sim.py (card catalog, CardBag ledger, Curve descriptor,
   GameState, mulligan keep rule, turn policy) and of the local-search
   optimizer's estimate-update step in optimal_curve_commander.py, together
   with theorems settling the specification's claims about them. -/

set_option linter.unusedVariables false
set_option synthInstance.maxSize 512

/-- Card archetype names from the catalog CARD_TYPES in curve_sim.py
("Land", "Sol Ring", "Rock", "1 CMC" .. "6 CMC"), plus "Draw", which occurs
in decklists (Curve.decklist) but has no entry in the CARDS catalog: a
catalog lookup on "Draw" would raise KeyError in the source, and "Draw"
never occurs in a play-set produced by the turn policy. -/
inductive CardName where
  | land
  | solRing
  | rock
  | c1
  | c2
  | c3
  | c4
  | c5
  | c6
  | draw
deriving DecidableEq, Repr, Fintype

/-- All card names, catalog order first (CARD_NAMES), then "Draw". -/
def cardNamesList : List CardName :=
  [.land, .solRing, .rock, .c1, .c2, .c3, .c4, .c5, .c6, .draw]

/-- Mana cost column of CARD_TYPES. "Draw" has no catalog entry in the
source (see CardName); it is given cost 0 here and never reaches any
catalog-consuming code path in the theorems below. -/
def cmcOf : CardName → Int
  | .land => 0
  | .solRing => 1
  | .rock => 2
  | .c1 => 1
  | .c2 => 2
  | .c3 => 3
  | .c4 => 4
  | .c5 => 5
  | .c6 => 6
  | .draw => 0

/-- Mana-produced column of CARD_TYPES (1 for Land and Rock, 2 for Sol
Ring, 0 for spells); "Draw" as in cmcOf. -/
def manaProducedOf : CardName → Int
  | .land => 1
  | .solRing => 2
  | .rock => 1
  | _ => 0

/-- Board-value column of CARD_TYPES: the cost for 1..5-drops, 6.2 (= 31/5)
for 6-drops, 0 for mana sources; "Draw" as in cmcOf. -/
def valueOf : CardName → ℚ
  | .c1 => 1
  | .c2 => 2
  | .c3 => 3
  | .c4 => 4
  | .c5 => 5
  | .c6 => 31/5
  | _ => 0

/-- The CardBag ledger: archetype name to count. In the source a zero count
is identical to absence (CardBag.__setitem__ drops zero entries and
equality compares the remaining dict), so a plain function to Nat captures
bag equality; counts are never negative because storing a negative count
raises ValueError. -/
def CardBag := CardName → Nat

/-- The empty bag, CardBag({}). -/
def CardBag.empty : CardBag := fun _ => 0

namespace CardBag

/-- CardBag.add / self[card] += count. The source takes a Python int; at
every call site in scope the resulting count is nonnegative (a negative
result would raise ValueError in __setitem__), where Int.toNat agrees with
the source. -/
def add (b : CardBag) (c : CardName) (k : Int) : CardBag :=
  fun x => if x = c then ((b x : Int) + k).toNat else b x

/-- CardBag.__sub__: for each card held, max(0, count - other[card]); cards
not held stay absent. Truncated Nat subtraction is exactly this clamped
difference. -/
def sub (b other : CardBag) : CardBag :=
  fun x => b x - other x

/-- CardBag.net_mana_cost: sum of (cmc - mana_produced) * count over the
bag's entries. Zero-count entries contribute 0, so summing over all names
agrees with the source's iteration over the stored (nonzero) items. -/
def netManaCost (b : CardBag) : Int :=
  (cardNamesList.map fun c => (cmcOf c - manaProducedOf c) * (b c : Int)).sum

/-- CardBag.includes_nonrock: some held card produces no mana. The source
iterates the stored (nonzero) entries, so the count > 0 guard matches. -/
def includesNonrock (b : CardBag) : Bool :=
  cardNamesList.any fun c => manaProducedOf c == 0 && b c != 0

end CardBag

/-- do_we_keep from curve_sim.py: keep any hand of at most 4 cards;
otherwise compare the land count against bounds (minimum 3 on a free
mulligan else 2, relaxed to 1 with a Sol Ring; maximum 5 when keeping more
than 5 cards else 6, reduced by the rock count when keeping 7). -/
def do_we_keep (hand : CardBag) (cardsToKeep : Int) (free : Bool) : Bool :=
  if cardsToKeep ≤ 4 then
    true
  else
    let minLands0 : Int := if free then 3 else 2
    let minLands : Int := if 0 < hand .solRing then 1 else minLands0
    let maxLands0 : Int := if 5 < cardsToKeep then 5 else 6
    let maxLands : Int :=
      if cardsToKeep = 7 then maxLands0 - (hand .rock : Int) else maxLands0
    decide (minLands ≤ (hand .land : Int) ∧ (hand .land : Int) ≤ maxLands)

/-- A hand used to refute claim C3: two lands and five six-drops. -/
def handTwoLands : CardBag :=
  fun x => if x = .land then 2 else if x = .c6 then 5 else 0

/-- The hand used to refute claim C5: 3 lands, 2 rocks, 2 one-drops. -/
def handThreeLandsTwoRocks : CardBag :=
  fun x =>
    if x = .land then 3 else if x = .rock then 2 else if x = .c1 then 2 else 0

/-- handThreeLandsTwoRocks with one one-drop swapped for a rock. -/
def handThreeLandsThreeRocks : CardBag :=
  fun x =>
    if x = .land then 3 else if x = .rock then 3 else if x = .c1 then 1 else 0

/-- A rockless keepable hand: 3 lands and 4 one-drops. -/
def handThreeLandsFourOnes : CardBag :=
  fun x => if x = .land then 3 else if x = .c1 then 4 else 0

/-- The hand obtained by replacing one copy of card c with a Rock (the
substitution described by claim C5; not a source operation). -/
def replaceWithRock (h : CardBag) (c : CardName) : CardBag :=
  fun x => if x = .rock then h x + 1 else if x = c then h x - 1 else h x

/-- C3 counterexample: the hand with 2 lands and 5 six-drops is kept at
size 7 under the non-free rule but rejected under the free rule (the free
rule raises the land minimum from 2 to 3), so non-free acceptance does not
imply free acceptance. -/
theorem do_we_keep_free_not_superset :
    do_we_keep handTwoLands 7 false = true ∧
      do_we_keep handTwoLands 7 true = false := by
  decide

/-- C3 (amended): a 7-card hand accepted under the free-mulligan rule is
also accepted under the non-free rule; the non-free acceptance region is a
superset of the free one (the free rule only raises the land minimum). -/
theorem do_we_keep_nonfree_superset_of_free (hand : CardBag)
    (hkeep : do_we_keep hand 7 true = true) :
    do_we_keep hand 7 false = true := by
  simp only [do_we_keep, if_neg (by norm_num : ¬ (7 : Int) ≤ 4),
    decide_eq_true_eq] at *
  by_cases hs : 0 < hand .solRing <;> simp only [hs, if_true, if_false] <;>
    simp only [hs, if_true, if_false] at hkeep <;> omega

/-- Witness for the amended C3 at a concrete hand (3 lands, 4 one-drops):
accepted free, hence accepted non-free. -/
theorem do_we_keep_nonfree_superset_of_free_witness :
    do_we_keep handThreeLandsTwoRocks 7 true = true ∧
      do_we_keep handThreeLandsTwoRocks 7 false = true :=
  ⟨by decide, do_we_keep_nonfree_superset_of_free _ (by decide)⟩

/-- C5 counterexample: the 7-card hand with 3 lands, 2 rocks and 2
one-drops is kept, but replacing one one-drop with a Rock (a non-land,
non-rock, non-accelerant card) makes it rejected: each extra rock lowers
the land maximum (5 - rocks), so a rock can tighten, not loosen, the land
requirement. -/
theorem rock_substitution_can_reject :
    do_we_keep handThreeLandsTwoRocks 7 false = true ∧
      (∀ x, replaceWithRock handThreeLandsTwoRocks .c1 x =
        handThreeLandsThreeRocks x) ∧
      1 ≤ handThreeLandsTwoRocks .c1 ∧
      CardName.c1 ≠ .land ∧ CardName.c1 ≠ .rock ∧ CardName.c1 ≠ .solRing ∧
      do_we_keep handThreeLandsThreeRocks 7 false = false := by
  decide

/-- C5 (amended): for 7-card keep decisions a rock tightens the land
requirement, never loosens it: if the hand with a non-land, non-rock,
non-accelerant card replaced by a Rock is accepted, then the original hand
was accepted. -/
theorem do_we_keep_rock_tightens (h : CardBag) (free : Bool) (c : CardName)
    (hc1 : c ≠ .land) (hc2 : c ≠ .rock) (hc3 : c ≠ .solRing)
    (hheld : 1 ≤ h c)
    (hkeep : do_we_keep (replaceWithRock h c) 7 free = true) :
    do_we_keep h 7 free = true := by
  have hl : replaceWithRock h c .land = h .land := by
    simp [replaceWithRock, Ne.symm hc1]
  have hs : replaceWithRock h c .solRing = h .solRing := by
    simp [replaceWithRock, Ne.symm hc3]
  have hr : replaceWithRock h c .rock = h .rock + 1 := by
    simp [replaceWithRock]
  simp only [do_we_keep, if_neg (by norm_num : ¬ (7 : Int) ≤ 4),
    decide_eq_true_eq, hl, hs, hr] at *
  by_cases hsol : 0 < h .solRing <;>
    simp only [hsol, if_true, if_false] at hkeep ⊢ <;> omega

/-- Witness for the amended C5: substituting a Rock for a one-drop in a
hand with 3 lands and 4 one-drops still keeps, so the original keeps. -/
theorem do_we_keep_rock_tightens_witness :
    (do_we_keep (replaceWithRock handThreeLandsFourOnes .c1) 7 false = true) ∧
      do_we_keep handThreeLandsFourOnes 7 false = true :=
  ⟨by decide,
    do_we_keep_rock_tightens _ false .c1 (by decide) (by decide) (by decide)
      (by decide) (by decide)⟩

/-- C6: any hand of at most 4 cards to keep is accepted unconditionally,
so a rejection of a 4-card (or smaller) hand is impossible and the
mulligan-exhaustion branch is unreachable. -/
theorem do_we_keep_always_keeps_four (hand : CardBag) (k : Int) (free : Bool)
    (hk : k ≤ 4) : do_we_keep hand k free = true := by
  simp [do_we_keep, hk]

/-- Witness for C6: the empty hand at size 4 is kept. -/
theorem do_we_keep_always_keeps_four_witness :
    do_we_keep CardBag.empty 4 false = true :=
  do_we_keep_always_keeps_four CardBag.empty 4 false (by norm_num)

/-- CurveTuple: the 8 per-dimension values (one..six, rock, land) of a
curve, in astuple order; draw is excluded (it is always zero). -/
abbrev CurveTuple := Int × Int × Int × Int × Int × Int × Int × Int

/-- The Curve descriptor dataclass: counts of each spell tier, rocks, draw
spells and lands. -/
structure Curve where
  one : Int
  two : Int
  three : Int
  four : Int
  five : Int
  six : Int
  rock : Int
  draw : Int
  land : Int
deriving DecidableEq, Repr

/-- nearby_values: the integers from max(start_value - 1, 0) up to
start_value + 1 inclusive (range(max(v - 1, 0), v + 2)). -/
def nearby_values (v : Int) : List Int :=
  (List.range (v + 2 - max (v - 1) 0).toNat).map
    fun i : Nat => max (v - 1) 0 + (i : Int)

/-- Curve.fromtuple: rebuild a Curve from its 8-tuple, with draw = 0. -/
def Curve.fromtuple : CurveTuple → Curve
  | (one, two, three, four, five, six, rock, land) =>
    ⟨one, two, three, four, five, six, rock, 0, land⟩

/-- Curve.astuple: the 8 dimensions in order, skipping draw. -/
def Curve.astuple (c : Curve) : CurveTuple :=
  (c.one, c.two, c.three, c.four, c.five, c.six, c.rock, c.land)

/-- Cartesian product of two lists with the second component varying
fastest, the order in which itertools.product pairs its arguments. -/
def product₂ {α β : Type} (la : List α) (lb : List β) : List (α × β) :=
  la.flatMap fun a => lb.map fun b => (a, b)

/-- Curve.nearby_decks: the Cartesian product of the per-dimension
nearby_values brackets, each tuple rebuilt into a Curve via fromtuple. -/
def Curve.nearby_decks (c : Curve) : List Curve :=
  (product₂ (nearby_values c.one)
    (product₂ (nearby_values c.two)
      (product₂ (nearby_values c.three)
        (product₂ (nearby_values c.four)
          (product₂ (nearby_values c.five)
            (product₂ (nearby_values c.six)
              (product₂ (nearby_values c.rock)
                (nearby_values c.land)))))))).map Curve.fromtuple

theorem length_product₂ {α β : Type} (la : List α) (lb : List β) :
    (product₂ la lb).length = la.length * lb.length := by
  induction la with
  | nil => simp [product₂]
  | cons a la ih =>
    simp only [product₂, List.flatMap_cons, List.length_append,
      List.length_map, List.length_cons] at *
    rw [ih]
    ring

theorem mem_product₂ {α β : Type} {la : List α} {lb : List β}
    {p : α × β} : p ∈ product₂ la lb ↔ p.1 ∈ la ∧ p.2 ∈ lb := by
  cases p with
  | mk a b =>
    simp only [product₂, List.mem_flatMap, List.mem_map, Prod.mk.injEq]
    constructor
    · rintro ⟨x, hx, y, hy, rfl, rfl⟩
      exact ⟨hx, hy⟩
    · rintro ⟨ha, hb⟩
      exact ⟨a, ha, b, hb, rfl, rfl⟩

/-- The number of occurrences of a given value in a list, via countP with
an explicit equality test (instance-stable on nested product types). -/
def occurrences {α : Type} [DecidableEq α] (l : List α) (a : α) : Nat :=
  l.countP fun x => decide (x = a)

theorem occurrences_append {α : Type} [DecidableEq α] (l₁ l₂ : List α)
    (a : α) : occurrences (l₁ ++ l₂) a = occurrences l₁ a + occurrences l₂ a := by
  simp [occurrences, List.countP_append]

theorem occurrences_cons {α : Type} [DecidableEq α] (x : α) (l : List α)
    (a : α) :
    occurrences (x :: l) a = occurrences l a + if x = a then 1 else 0 := by
  simp only [occurrences, List.countP_cons, decide_eq_true_eq]

theorem occurrences_map_pair {α β : Type} [DecidableEq α] [DecidableEq β]
    (lb : List β) (x : α) (b : β) :
    occurrences (lb.map fun y => (x, y)) (x, b) = occurrences lb b := by
  rw [occurrences, List.countP_map]
  have hpred : ((fun p : α × β => decide (p = (x, b))) ∘ fun y => (x, y)) =
      fun y => decide (y = b) := by
    funext y
    simp [Function.comp, Prod.ext_iff]
  rw [hpred]
  rfl

theorem occurrences_map_pair_ne {α β : Type} [DecidableEq α] [DecidableEq β]
    (lb : List β) {x a : α} (b : β) (hx : x ≠ a) :
    occurrences (lb.map fun y => (x, y)) (a, b) = 0 := by
  rw [occurrences, List.countP_eq_zero]
  intro p hp
  rw [List.mem_map] at hp
  obtain ⟨y, hy, rfl⟩ := hp
  simp only [decide_eq_true_eq, Prod.mk.injEq, not_and]
  intro h
  exact absurd h hx

theorem occurrences_product₂ {α β : Type} [DecidableEq α] [DecidableEq β]
    (la : List α) (lb : List β) (a : α) (b : β) :
    occurrences (product₂ la lb) (a, b) =
      occurrences la a * occurrences lb b := by
  induction la with
  | nil => simp [product₂, occurrences]
  | cons x la ih =>
    have hsplit : product₂ (x :: la) lb =
        (lb.map fun y => (x, y)) ++ product₂ la lb := by
      simp [product₂]
    rw [hsplit, occurrences_append, ih, occurrences_cons]
    by_cases hx : x = a
    · subst hx
      rw [occurrences_map_pair]
      simp only [eq_self_iff_true, if_true]
      ring
    · rw [occurrences_map_pair_ne lb b hx]
      simp [hx]

theorem fromtuple_injective : Function.Injective Curve.fromtuple := by
  rintro ⟨a1, a2, a3, a4, a5, a6, a7, a8⟩ ⟨b1, b2, b3, b4, b5, b6, b7, b8⟩ h
  simp only [Curve.fromtuple, Curve.mk.injEq] at h
  simp [Prod.ext_iff]
  tauto

theorem nearby_values_of_pos {v : Int} (hv : 1 ≤ v) :
    nearby_values v = [v - 1, v, v + 1] := by
  have h1 : max (v - 1) 0 = v - 1 := by omega
  have h2 : (v + 2 - max (v - 1) 0).toNat = 3 := by omega
  rw [nearby_values, h2, show List.range 3 = [0, 1, 2] from rfl]
  simp only [List.map_cons, List.map_nil, h1, List.cons.injEq, and_true]
  omega

theorem length_nearby_values_of_pos {v : Int} (hv : 1 ≤ v) :
    (nearby_values v).length = 3 := by
  rw [nearby_values_of_pos hv]
  rfl

theorem occurrences_self_nearby_values {v : Int} (hv : 1 ≤ v) :
    occurrences (nearby_values v) v = 1 := by
  rw [nearby_values_of_pos hv]
  simp only [occurrences, List.countP_cons, List.countP_nil,
    decide_eq_true_eq]
  have hne1 : ¬ (v - 1 = v) := by omega
  have hne2 : ¬ (v + 1 = v) := by omega
  simp [hne1, hne2]

theorem mem_nearby_values {v x : Int} (hv : 1 ≤ v)
    (hx : x ∈ nearby_values v) : v - 1 ≤ x ∧ x ≤ v + 1 ∧ 0 ≤ x := by
  rw [nearby_values_of_pos hv] at hx
  have := List.mem_cons.mp hx
  rcases this with rfl | hx
  · omega
  · rcases List.mem_cons.mp hx with rfl | hx
    · omega
    · rcases List.mem_cons.mp hx with rfl | hx
      · omega
      · cases hx

/-- C7: for a curve whose eight astuple dimensions are all positive (and
draw = 0), nearby_decks has exactly 3^8 = 6561 entries, exactly one entry
equal to the curve itself, and every entry differs by at most 1 in each
dimension from the curve with every dimension nonnegative (and draw 0). -/
theorem nearby_decks_spec (cv : Curve) (hdraw : cv.draw = 0)
    (hpos : 1 ≤ cv.one ∧ 1 ≤ cv.two ∧ 1 ≤ cv.three ∧ 1 ≤ cv.four ∧
      1 ≤ cv.five ∧ 1 ≤ cv.six ∧ 1 ≤ cv.rock ∧ 1 ≤ cv.land) :
    cv.nearby_decks.length = 6561 ∧
      occurrences cv.nearby_decks cv = 1 ∧
      ∀ d ∈ cv.nearby_decks,
        (cv.one - 1 ≤ d.one ∧ d.one ≤ cv.one + 1 ∧ 0 ≤ d.one) ∧
        (cv.two - 1 ≤ d.two ∧ d.two ≤ cv.two + 1 ∧ 0 ≤ d.two) ∧
        (cv.three - 1 ≤ d.three ∧ d.three ≤ cv.three + 1 ∧ 0 ≤ d.three) ∧
        (cv.four - 1 ≤ d.four ∧ d.four ≤ cv.four + 1 ∧ 0 ≤ d.four) ∧
        (cv.five - 1 ≤ d.five ∧ d.five ≤ cv.five + 1 ∧ 0 ≤ d.five) ∧
        (cv.six - 1 ≤ d.six ∧ d.six ≤ cv.six + 1 ∧ 0 ≤ d.six) ∧
        (cv.rock - 1 ≤ d.rock ∧ d.rock ≤ cv.rock + 1 ∧ 0 ≤ d.rock) ∧
        (cv.land - 1 ≤ d.land ∧ d.land ≤ cv.land + 1 ∧ 0 ≤ d.land) ∧
        d.draw = 0 := by
  obtain ⟨h1, h2, h3, h4, h5, h6, h7, h8⟩ := hpos
  refine ⟨?_, ?_, ?_⟩
  · rw [Curve.nearby_decks, List.length_map]
    rw [length_product₂, length_product₂, length_product₂, length_product₂,
      length_product₂, length_product₂, length_product₂]
    rw [length_nearby_values_of_pos h1, length_nearby_values_of_pos h2,
      length_nearby_values_of_pos h3, length_nearby_values_of_pos h4,
      length_nearby_values_of_pos h5, length_nearby_values_of_pos h6,
      length_nearby_values_of_pos h7, length_nearby_values_of_pos h8]
  · have hcv : cv = Curve.fromtuple cv.astuple := by
      cases cv
      simp_all [Curve.astuple, Curve.fromtuple]
    rw [Curve.nearby_decks, occurrences, List.countP_map]
    have hpred : ((fun d : Curve => decide (d = cv)) ∘ Curve.fromtuple) =
        fun t => decide (t = cv.astuple) := by
      funext t
      simp only [Function.comp, decide_eq_decide]
      constructor
      · intro h
        exact fromtuple_injective (h.trans hcv)
      · intro h
        rw [h, ← hcv]
    rw [hpred]
    rw [show ∀ l : List CurveTuple,
      (l.countP fun t => decide (t = cv.astuple)) = occurrences l cv.astuple
      from fun l => rfl]
    rw [Curve.astuple]
    rw [occurrences_product₂, occurrences_product₂, occurrences_product₂,
      occurrences_product₂, occurrences_product₂, occurrences_product₂,
      occurrences_product₂]
    rw [occurrences_self_nearby_values h1, occurrences_self_nearby_values h2,
      occurrences_self_nearby_values h3, occurrences_self_nearby_values h4,
      occurrences_self_nearby_values h5, occurrences_self_nearby_values h6,
      occurrences_self_nearby_values h7, occurrences_self_nearby_values h8]
  · intro d hd
    rw [Curve.nearby_decks, List.mem_map] at hd
    obtain ⟨t, ht, rfl⟩ := hd
    obtain ⟨a1, a2, a3, a4, a5, a6, a7, a8⟩ := t
    simp only [mem_product₂] at ht
    obtain ⟨m1, m2, m3, m4, m5, m6, m7, m8⟩ := ht
    have b1 := mem_nearby_values h1 m1
    have b2 := mem_nearby_values h2 m2
    have b3 := mem_nearby_values h3 m3
    have b4 := mem_nearby_values h4 m4
    have b5 := mem_nearby_values h5 m5
    have b6 := mem_nearby_values h6 m6
    have b7 := mem_nearby_values h7 m7
    have b8 := mem_nearby_values h8 m8
    exact ⟨⟨b1.1, b1.2.1, b1.2.2⟩, ⟨b2.1, b2.2.1, b2.2.2⟩,
      ⟨b3.1, b3.2.1, b3.2.2⟩, ⟨b4.1, b4.2.1, b4.2.2⟩,
      ⟨b5.1, b5.2.1, b5.2.2⟩, ⟨b6.1, b6.2.1, b6.2.2⟩,
      ⟨b7.1, b7.2.1, b7.2.2⟩, ⟨b8.1, b8.2.1, b8.2.2⟩, rfl⟩

/-- A concrete curve with every dimension 1 and draw 0. -/
def curveAllOnes : Curve := ⟨1, 1, 1, 1, 1, 1, 1, 0, 1⟩

/-- Witness for C7 at curveAllOnes. -/
theorem nearby_decks_spec_witness :
    curveAllOnes.draw = 0 ∧
      (curveAllOnes.nearby_decks.length = 6561 ∧
        occurrences curveAllOnes.nearby_decks curveAllOnes = 1 ∧
        ∀ d ∈ curveAllOnes.nearby_decks,
          (curveAllOnes.one - 1 ≤ d.one ∧ d.one ≤ curveAllOnes.one + 1 ∧
            0 ≤ d.one) ∧
          (curveAllOnes.two - 1 ≤ d.two ∧ d.two ≤ curveAllOnes.two + 1 ∧
            0 ≤ d.two) ∧
          (curveAllOnes.three - 1 ≤ d.three ∧
            d.three ≤ curveAllOnes.three + 1 ∧ 0 ≤ d.three) ∧
          (curveAllOnes.four - 1 ≤ d.four ∧ d.four ≤ curveAllOnes.four + 1 ∧
            0 ≤ d.four) ∧
          (curveAllOnes.five - 1 ≤ d.five ∧ d.five ≤ curveAllOnes.five + 1 ∧
            0 ≤ d.five) ∧
          (curveAllOnes.six - 1 ≤ d.six ∧ d.six ≤ curveAllOnes.six + 1 ∧
            0 ≤ d.six) ∧
          (curveAllOnes.rock - 1 ≤ d.rock ∧ d.rock ≤ curveAllOnes.rock + 1 ∧
            0 ≤ d.rock) ∧
          (curveAllOnes.land - 1 ≤ d.land ∧ d.land ≤ curveAllOnes.land + 1 ∧
            0 ≤ d.land) ∧
          d.draw = 0) :=
  ⟨rfl, nearby_decks_spec curveAllOnes rfl
    ⟨by norm_num [curveAllOnes], by norm_num [curveAllOnes],
      by norm_num [curveAllOnes], by norm_num [curveAllOnes],
      by norm_num [curveAllOnes], by norm_num [curveAllOnes],
      by norm_num [curveAllOnes], by norm_num [curveAllOnes]⟩⟩

/-- GameState from curve_sim.py. Permanent counts and mana are Python ints;
the two score accumulators are floats in the source, embedded as exact
rationals (the catalog's only non-integer constant is the 6-drop value
6.2); no claim below depends on float rounding of the accumulators. -/
structure GameState where
  library : List CardName
  hand : CardBag
  lands_in_play : Int := 0
  rocks_in_play : Int := 0
  compounded_mana_spent : ℚ := 0
  cumulative_mana_in_play : ℚ := 0
  mana_available : Int := 0

/-- One iteration of the loop in GameState.play_from_hand for a card played
k times: debit its cost from mana_available and credit its produced mana,
apply its effect (play_land, play_rocks, or Sol Ring counting as two
rocks), and add_value its value to both accumulators. All updates are
commuting additions scaled by k, so folding over a fixed card order with
zero-count cards as no-ops agrees with the source's iteration over the
play-set's stored (nonzero) entries. -/
def applyPlayedCard (s : GameState) (c : CardName) (k : Nat) : GameState :=
  let s := { s with mana_available :=
    s.mana_available - cmcOf c * (k : Int) + manaProducedOf c * (k : Int) }
  let s :=
    match c with
    | .land => { s with lands_in_play := s.lands_in_play + (k : Int) }
    | .solRing => { s with rocks_in_play := s.rocks_in_play + 2 * (k : Int) }
    | .rock => { s with rocks_in_play := s.rocks_in_play + (k : Int) }
    | _ => s
  { s with
    cumulative_mana_in_play := s.cumulative_mana_in_play + valueOf c * (k : ℚ),
    compounded_mana_spent := s.compounded_mana_spent + valueOf c * (k : ℚ) }

/-- GameState.play_from_hand: replace the hand by hand - plays (the floored
CardBag.__sub__; the CardBag constructor cannot raise on this path because
every count is already clamped at zero by the max), then run the per-card
loop. -/
def GameState.play_from_hand (s : GameState) (plays : CardBag) : GameState :=
  let s' := { s with hand := s.hand.sub plays }
  cardNamesList.foldl (fun st c => applyPlayedCard st c (plays c)) s'

/-- GameState.bottom_from_hand: delete the selection from the hand using
the same floored subtraction. -/
def GameState.bottom_from_hand (s : GameState) (selection : CardBag) :
    GameState :=
  { s with hand := s.hand.sub selection }

/-- The specification's exact subtraction ("subtractExact: errors if any
resulting count would go below zero"), modelled from the spec's words for
comparison with the code's single floored subtraction; the error outcome is
none. -/
def subtractExact (a b : CardBag) : Option CardBag :=
  if cardNamesList.all fun c => b c ≤ a c then
    some fun c => a c - b c
  else
    none

/-- A hand holding a single land. -/
def handOneLand : CardBag := fun x => if x = .land then 1 else 0

/-- A play-set removing two lands. -/
def playsTwoLands : CardBag := fun x => if x = .land then 2 else 0

/-- C1 counterexample: removing two lands from a one-land hand through the
play path returns normally with the land count silently clamped to 0, even
though this removal drives the count below zero (the spec's exact
subtraction errors on it); play_from_hand never raises. -/
theorem play_from_hand_clamps :
    handOneLand .land < playsTwoLands .land ∧
      subtractExact handOneLand playsTwoLands = none ∧
      (GameState.play_from_hand ⟨[], handOneLand, 0, 0, 0, 0, 0⟩
          playsTwoLands).hand .land = 0 := by
  refine ⟨by decide, by rfl, by decide⟩

/-- C1 (amended): both the play path and the bottoming path remove cards
with the same floored subtraction: the resulting count of every card is
max(0, held - removed) (truncated Nat subtraction), and neither path can
raise, whether or not the removal would go below zero. -/
theorem hand_removal_is_floored (s : GameState) (plays sel : CardBag)
    (c : CardName) :
    (s.play_from_hand plays).hand c = s.hand c - plays c ∧
      (s.bottom_from_hand sel).hand c = s.hand c - sel c := by
  have hfold : ∀ (l : List CardName) (st : GameState),
      (l.foldl (fun st c => applyPlayedCard st c (plays c)) st).hand =
        st.hand := by
    intro l
    induction l with
    | nil => intro st; rfl
    | cons x l ih =>
      intro st
      rw [List.foldl_cons, ih]
      cases x <;> rfl
  constructor
  · rw [GameState.play_from_hand, hfold]
    rfl
  · rfl


/-- drawSeven n lib hand: n repetitions of "pop the library head into the
hand" from GameState.start (popping an empty library would raise in the
source; that case is unreachable under the sample-length hypothesis). -/
def drawSeven : Nat → List CardName → CardBag → List CardName × CardBag
  | 0, lib, h => (lib, h)
  | _ + 1, [], h => ([], h)
  | n + 1, c :: lib, h => drawSeven n lib (h.add c 1)

/-- GameState.start with the outcome of random.sample(library, 14) passed
in as the sampled list (the randomness source externalized): pop the first
7 sampled cards into the hand; the remainder is the starting library. -/
def GameState.start (sampled : List CardName) : GameState :=
  let p := drawSeven 7 sampled CardBag.empty
  { library := p.1, hand := p.2 }

/-- Total number of cards in a bag. -/
def bagSize (b : CardBag) : Nat := (cardNamesList.map b).sum

theorem bagSize_add_one (b : CardBag) (c : CardName) :
    bagSize (b.add c 1) = bagSize b + 1 := by
  cases c <;> simp [bagSize, cardNamesList, CardBag.add] <;> omega

theorem drawSeven_spec :
    ∀ (n : Nat) (lib : List CardName) (h : CardBag), n ≤ lib.length →
      bagSize (drawSeven n lib h).2 = bagSize h + n ∧
        (drawSeven n lib h).1.length = lib.length - n := by
  intro n
  induction n with
  | zero => intro lib h _; simp [drawSeven]
  | succ n ih =>
    intro lib h hlen
    cases lib with
    | nil => simp at hlen
    | cons c lib =>
      have hn : n ≤ lib.length := by
        simp only [List.length_cons] at hlen
        omega
      have hrec := ih lib (h.add c 1) hn
      rw [show drawSeven (n + 1) (c :: lib) h = drawSeven n lib (h.add c 1)
        from rfl]
      rw [hrec.1, hrec.2, bagSize_add_one]
      constructor
      · omega
      · simp only [List.length_cons]
        omega

/-- C9: whenever the 14-card sample succeeds (the decklist holds at least
14 cards and random.sample returns 14 of them), the starting state has
exactly 7 cards in hand and exactly 7 cards in the library: only 14 cards
are ever taken from the deck, supporting exactly 7 draws regardless of the
deck's full size. -/
theorem start_hand_and_library (decklist : CardBag)
    (sampled : List CardName)
    (hsub : ∀ c, sampled.count c ≤ decklist c)
    (hlen : sampled.length = 14)
    (hdeck : 14 ≤ bagSize decklist) :
    bagSize (GameState.start sampled).hand = 7 ∧
      (GameState.start sampled).library.length = 7 := by
  have h7 : (7 : Nat) ≤ sampled.length := by omega
  have := drawSeven_spec 7 sampled CardBag.empty h7
  constructor
  · rw [GameState.start]
    rw [this.1]
    rfl
  · rw [GameState.start]
    rw [this.2, hlen]

/-- A decklist of 14 lands. -/
def deckFourteenLands : CardBag := fun x => if x = .land then 14 else 0

/-- Witness for C9 with a 14-land deck and an all-land sample. -/
theorem start_hand_and_library_witness :
    ((∀ c, (List.replicate 14 CardName.land).count c ≤ deckFourteenLands c) ∧
        (List.replicate 14 CardName.land).length = 14 ∧
        14 ≤ bagSize deckFourteenLands) ∧
      bagSize (GameState.start (List.replicate 14 .land)).hand = 7 ∧
        (GameState.start (List.replicate 14 .land)).library.length = 7 :=
  ⟨⟨by decide, by decide, by decide⟩,
    start_hand_and_library deckFourteenLands _ (by decide) (by decide)
      (by decide)⟩

/-- CARDS_BY_CMC: the spell archetype for each cmc 1..6 (built from the
catalog; Sol Ring and Rock are overwritten by the 1- and 2-drop since the
dict comprehension runs in catalog order). Any other cmc yields the
defaultdict's empty string, embedded as none: its hand count is always 0,
so castable_count_for returns 0 through the in_hand < 1 guard before any
catalog lookup, and adding 0 copies of it is a no-op on the bag. -/
def CARDS_BY_CMC : Int → Option CardName := fun k =>
  if k = 1 then some .c1
  else if k = 2 then some .c2
  else if k = 3 then some .c3
  else if k = 4 then some .c4
  else if k = 5 then some .c5
  else if k = 6 then some .c6
  else none

/-- spells_in_descending_order: the CARDS_BY_CMC entries for cmc from
max_cmc down to 1 (empty when max_cmc <= 0, entries beyond cmc 6 are the
defaultdict misses). -/
def spells_in_descending_order (maxCmc : Int) : List (Option CardName) :=
  (List.range maxCmc.toNat).map fun i : Nat => CARDS_BY_CMC (maxCmc - (i : Int))

/-- mana_left_for: the mana still available after committing to a play. -/
def mana_left_for (manaAvailable : Int) (play : CardBag) : Int :=
  manaAvailable - play.netManaCost

/-- max_playable: at most one land per turn, otherwise capped by floored
division of the available mana by the card's cost (Python // is floor
division, Int.fdiv). -/
def max_playable (c : CardName) (inHand : Int) (manaAvailable : Int) : Int :=
  if cmcOf c = 0 then min 1 inHand
  else min inHand (Int.fdiv manaAvailable (cmcOf c))

/-- castable_count_for: copies of the card still in hand net of the play,
0 when none; the available mana gains 1 when the card is a 1-mana producer
(Rock or Land) and the play already holds a nonrock spell - the retroactive
"sneak in a rock before the spell" allowance. -/
def castable_count_for (hand play : CardBag) (cardName : CardName)
    (startingMana : Int) : Int :=
  let inHand : Int := (hand cardName : Int) - (play cardName : Int)
  if inHand < 1 then 0
  else
    let manaAvailable := mana_left_for startingMana play
    let manaAvailable :=
      if manaProducedOf cardName == 1 && play.includesNonrock then
        manaAvailable + 1
      else manaAvailable
    max_playable cardName inHand manaAvailable

/-- castable_count_for on an optional spell-list entry: for none (the
source's empty string) the hand count is 0 and the source returns 0. -/
def castableCountForEntry (hand play : CardBag) (entry : Option CardName)
    (startingMana : Int) : Int :=
  match entry with
  | none => 0
  | some c => castable_count_for hand play c startingMana

/-- One step of the final casting loop: play.add(spell,
castable_count_for(hand, play, spell, mana_available)); a none entry adds
0 copies of the defaultdict miss, a no-op. -/
def addCastable (hand : CardBag) (startingMana : Int) (play : CardBag)
    (entry : Option CardName) : CardBag :=
  match entry with
  | none => play
  | some c => play.add c (castable_count_for hand play c startingMana)

/-- play_one_rock_before_spell: if a spell of cmc = remaining mana - 1 is
in the list and castable, cast one rock now (when one is castable) and
leave the spell for the main loop. -/
def play_one_rock_before_spell (hand : CardBag) (startingMana : Int)
    (play : CardBag) (optimalSpells : List (Option CardName)) : CardBag :=
  if optimalSpells.length < 2 then play
  else if castableCountForEntry hand play (optimalSpells.getD 1 none)
      startingMana < 1 then
    play
  else
    play.add .rock (min 1 (castable_count_for hand play .rock startingMana))

/-- play_two_drop_as_first_spell: when the biggest listed spell cannot be
cast, try a two-drop followed by the spell of cmc = remaining - 2. -/
def play_two_drop_as_first_spell (hand : CardBag) (startingMana : Int)
    (play : CardBag) (optimalSpells : List (Option CardName)) : CardBag :=
  if optimalSpells.length < 3 then play
  else if 0 < castableCountForEntry hand play (optimalSpells.getD 0 none)
      startingMana then
    play
  else if castable_count_for hand play .c2 startingMana < 1 then play
  else
    let hypothetical := play.add .c2 1
    if castableCountForEntry hand hypothetical (optimalSpells.getD 2 none)
        startingMana < 1 then
      play
    else hypothetical

/-- Stages 1-3 of choose_play_for: one land if held, then castable Sol
Rings, then (on turns before 3) as many rocks as affordable. -/
def earlyPlay (hand : CardBag) (manaAvailable : Int) (turn : Nat) : CardBag :=
  let play : CardBag := fun x => if x = .land then min 1 (hand .land) else 0
  let play := play.add .solRing
    (castable_count_for hand play .solRing manaAvailable)
  if turn < 3 then
    play.add .rock (castable_count_for hand play .rock manaAvailable)
  else play

/-- The descending spell list of choose_play_for, computed once from the
mana left after the early stages. -/
def optimalSpellsFor (hand : CardBag) (manaAvailable : Int) (turn : Nat) :
    List (Option CardName) :=
  spells_in_descending_order
    (mana_left_for manaAvailable (earlyPlay hand manaAvailable turn))

/-- Stages 4-5 of choose_play_for: the turn-3/4 one-rock heuristic, then
the two-drop double-spell check when at most 6 mana remains. -/
def midPlay (hand : CardBag) (manaAvailable : Int) (turn : Nat) : CardBag :=
  let play := earlyPlay hand manaAvailable turn
  let os := optimalSpellsFor hand manaAvailable turn
  let play :=
    if turn = 3 ∨ turn = 4 then
      play_one_rock_before_spell hand manaAvailable play os
    else play
  if mana_left_for manaAvailable play ≤ 6 then
    play_two_drop_as_first_spell hand manaAvailable play os
  else play

/-- The play-set after the greedy descending casts but before the loop's
final "Rock" entry: the intermediate state the retroactive-rock claim
quantifies over. -/
def preRockPlay (hand : CardBag) (manaAvailable : Int) (turn : Nat) :
    CardBag :=
  (optimalSpellsFor hand manaAvailable turn).foldl
    (addCastable hand manaAvailable) (midPlay hand manaAvailable turn)

/-- choose_play_for from curve_sim.py, assembled from the stages above in
source order: land, Sol Ring, early rocks; on turn 1 with a Sol Ring in
the play-set, return it at once; otherwise run the turn-3/4 rock and
two-drop checks and fold the casting loop over the descending spells plus
a final Rock entry. -/
def choose_play_for (hand : CardBag) (manaAvailable : Int) (turn : Nat) :
    CardBag :=
  let play := earlyPlay hand manaAvailable turn
  if turn = 1 ∧ 0 < play .solRing then play
  else
    ((optimalSpellsFor hand manaAvailable turn) ++ [some CardName.rock]).foldl
      (addCastable hand manaAvailable) (midPlay hand manaAvailable turn)

/-- choose_play: collapse the turn (4 behaves as 3, everything from 5 on as
5) and apply the pure policy to the hand and available mana. -/
def choose_play (state : GameState) (turn : Nat) : CardBag :=
  let simplifiedTurn := if turn = 4 then 3 else min turn 5
  choose_play_for state.hand state.mana_available simplifiedTurn

/-- C10: the policy collapses turn numbers before consulting the pure
policy: every turn from 5 on plays like turn 5, and turn 4 plays like turn
3; the play-set depends on the turn only through this collapsed value. -/
theorem choose_play_turn_collapse (state : GameState) (t : Nat)
    (ht : 5 ≤ t) :
    choose_play state t = choose_play state 5 ∧
      choose_play state 4 = choose_play state 3 := by
  constructor
  · have h4 : ¬ t = 4 := by omega
    simp only [choose_play]
    rw [if_neg h4, if_neg (by norm_num : ¬ (5 : Nat) = 4),
      Nat.min_eq_right ht, Nat.min_self]
  · rfl

/-- The empty game state. -/
def emptyState : GameState := ⟨[], CardBag.empty, 0, 0, 0, 0, 0⟩

/-- Witness for C10 at turn 9 on the empty state. -/
theorem choose_play_turn_collapse_witness :
    (5 : Nat) ≤ 9 ∧
      (choose_play emptyState 9 = choose_play emptyState 5 ∧
        choose_play emptyState 4 = choose_play emptyState 3) :=
  ⟨by norm_num, choose_play_turn_collapse emptyState 9 (by norm_num)⟩

theorem add_apply_ne (b : CardBag) (c x : CardName) (k : Int) (h : x ≠ c) :
    b.add c k x = b x := by
  simp [CardBag.add, h]

theorem cards_by_cmc_ne_solRing (k : Int) :
    CARDS_BY_CMC k ≠ some CardName.solRing := by
  unfold CARDS_BY_CMC
  split_ifs <;> simp

theorem addCastable_solRing (hand : CardBag) (m : Int) (p : CardBag)
    (oc : Option CardName) (h : oc ≠ some CardName.solRing) :
    addCastable hand m p oc .solRing = p .solRing := by
  cases oc with
  | none => rfl
  | some c =>
    have hc : CardName.solRing ≠ c := by
      intro hcc
      exact h (by rw [← hcc])
    exact add_apply_ne _ _ _ _ hc

theorem foldl_addCastable_solRing (hand : CardBag) (m : Int)
    (l : List (Option CardName)) (p : CardBag)
    (hl : ∀ oc ∈ l, oc ≠ some CardName.solRing) :
    (l.foldl (addCastable hand m) p) .solRing = p .solRing := by
  induction l generalizing p with
  | nil => rfl
  | cons oc l ih =>
    rw [List.foldl_cons, ih _ fun x hx => hl x (List.mem_cons_of_mem _ hx)]
    exact addCastable_solRing hand m p oc (hl oc (List.mem_cons_self _ _))

theorem os_no_solRing (hand : CardBag) (m : Int) (t : Nat) :
    ∀ oc ∈ optimalSpellsFor hand m t ++ [some CardName.rock],
      oc ≠ some CardName.solRing := by
  intro oc hoc
  rcases List.mem_append.mp hoc with hin | hin
  · rw [optimalSpellsFor, spells_in_descending_order] at hin
    rw [List.mem_map] at hin
    obtain ⟨i, _, rfl⟩ := hin
    exact cards_by_cmc_ne_solRing _
  · rcases List.mem_singleton.mp hin with rfl
    simp

theorem one_rock_solRing (hand : CardBag) (m : Int) (p : CardBag)
    (os : List (Option CardName)) :
    play_one_rock_before_spell hand m p os .solRing = p .solRing := by
  unfold play_one_rock_before_spell
  split_ifs <;> rfl

theorem two_drop_solRing (hand : CardBag) (m : Int) (p : CardBag)
    (os : List (Option CardName)) :
    play_two_drop_as_first_spell hand m p os .solRing = p .solRing := by
  simp only [play_two_drop_as_first_spell]
  split_ifs <;> rfl

theorem midPlay_solRing (hand : CardBag) (m : Int) (t : Nat) :
    midPlay hand m t .solRing = earlyPlay hand m t .solRing := by
  simp only [midPlay]
  split_ifs <;>
    simp only [two_drop_solRing, one_rock_solRing]

/-- choose_play_for written with its let bindings expanded (definitional),
for case analysis on the turn-1 accelerant return. -/
theorem choose_play_for_eq (hand : CardBag) (m : Int) (t : Nat) :
    choose_play_for hand m t =
      if t = 1 ∧ 0 < earlyPlay hand m t .solRing then earlyPlay hand m t
      else
        ((optimalSpellsFor hand m t) ++ [some CardName.rock]).foldl
          (addCastable hand m) (midPlay hand m t) := rfl

theorem earlyPlay_spell (hand : CardBag) (m : Int) (t : Nat) (s : CardName)
    (h1 : s ≠ .land) (h2 : s ≠ .solRing) (h3 : s ≠ .rock) :
    earlyPlay hand m t s = 0 := by
  simp only [earlyPlay]
  split_ifs with ht
  · rw [add_apply_ne _ _ _ _ h3, add_apply_ne _ _ _ _ h2]
    simp [h1]
  · rw [add_apply_ne _ _ _ _ h2]
    simp [h1]

/-- C2 (amended): whenever the turn-1 play-set contains the accelerant, it
contains no spell: every 1..6-cmc count (and the Draw count) of the
returned play-set is zero. (The set may still hold the land played in step
1 and rocks from the early-rock step, per the source's ordering; the
original claim's "no other card" fails on those.) -/
theorem turn_one_accelerant_no_spells (hand : CardBag) (manaAvailable : Int)
    (hsol : 0 < choose_play_for hand manaAvailable 1 .solRing) :
    choose_play_for hand manaAvailable 1 .c1 = 0 ∧
      choose_play_for hand manaAvailable 1 .c2 = 0 ∧
      choose_play_for hand manaAvailable 1 .c3 = 0 ∧
      choose_play_for hand manaAvailable 1 .c4 = 0 ∧
      choose_play_for hand manaAvailable 1 .c5 = 0 ∧
      choose_play_for hand manaAvailable 1 .c6 = 0 ∧
      choose_play_for hand manaAvailable 1 .draw = 0 := by
  by_cases hb : (1 = 1 ∧ 0 < earlyPlay hand manaAvailable 1 .solRing)
  · have hres : choose_play_for hand manaAvailable 1 =
        earlyPlay hand manaAvailable 1 := by
      rw [choose_play_for_eq, if_pos hb]
    rw [hres]
    refine ⟨?_, ?_, ?_, ?_, ?_, ?_, ?_⟩ <;>
      exact earlyPlay_spell _ _ _ _ (by decide) (by decide) (by decide)
  · exfalso
    have hres : choose_play_for hand manaAvailable 1 =
        ((optimalSpellsFor hand manaAvailable 1) ++
          [some CardName.rock]).foldl (addCastable hand manaAvailable)
          (midPlay hand manaAvailable 1) := by
      rw [choose_play_for_eq, if_neg hb]
    rw [hres] at hsol
    rw [foldl_addCastable_solRing _ _ _ _
      (os_no_solRing hand manaAvailable 1)] at hsol
    rw [midPlay_solRing] at hsol
    exact hb ⟨rfl, hsol⟩

/-- The hand refuting C2 as stated: Sol Ring, a land, and a one-drop. -/
def handSolLandSpell : CardBag :=
  fun x =>
    if x = .solRing then 1 else if x = .land then 1 else if x = .c1 then 1
    else 0

/-- C2 counterexample: with 1 mana on turn 1 and a hand holding the
accelerant, a land, and a castable one-drop, the returned play-set
contains the Sol Ring AND the land - another card - so "it contains no
other card" fails (the land of step 1, and early rocks, stay in the set;
only spells are excluded). -/
theorem turn_one_sol_ring_play_has_land :
    0 < handSolLandSpell .solRing ∧
      0 < handSolLandSpell .c1 ∧
      cmcOf .c1 ≤ 1 ∧
      (1 : Int) ≤ 1 ∧
      0 < choose_play_for handSolLandSpell 1 1 .solRing ∧
      0 < choose_play_for handSolLandSpell 1 1 .land ∧
      CardName.land ≠ CardName.solRing := by
  refine ⟨by decide, by decide, by decide, by decide, by decide, by decide,
    by decide⟩

/-- Witness for the amended C2 at the same concrete hand. -/
theorem turn_one_accelerant_no_spells_witness :
    0 < choose_play_for handSolLandSpell 1 1 .solRing ∧
      (choose_play_for handSolLandSpell 1 1 .c1 = 0 ∧
        choose_play_for handSolLandSpell 1 1 .c2 = 0 ∧
        choose_play_for handSolLandSpell 1 1 .c3 = 0 ∧
        choose_play_for handSolLandSpell 1 1 .c4 = 0 ∧
        choose_play_for handSolLandSpell 1 1 .c5 = 0 ∧
        choose_play_for handSolLandSpell 1 1 .c6 = 0 ∧
        choose_play_for handSolLandSpell 1 1 .draw = 0) :=
  ⟨by decide, turn_one_accelerant_no_spells handSolLandSpell 1 (by decide)⟩

/-- C4: whenever the turn-1 accelerant return does not fire (so the later
policy steps run) and, after the greedy descending casts (the play-set
preRockPlay), exactly 1 mana is left, at least 2 mana was available at
turn start, a rock is still held beyond those already in the play-set, and
the play-set holds a non-rock spell, the returned play-set contains exactly
one additional rock: the final "Rock" loop entry gets the retroactive +1
mana allowance of castable_count_for and floor((1+1)/2) = 1 rock is
added. -/
theorem retroactive_rock_added (hand : CardBag) (manaAvailable : Int)
    (turn : Nat)
    (hnotone : ¬ (turn = 1 ∧ 0 < earlyPlay hand manaAvailable turn .solRing))
    (hone : mana_left_for manaAvailable
      (preRockPlay hand manaAvailable turn) = 1)
    (hstart : 2 ≤ manaAvailable)
    (hrock : preRockPlay hand manaAvailable turn .rock < hand .rock)
    (hnr : (preRockPlay hand manaAvailable turn).includesNonrock = true) :
    choose_play_for hand manaAvailable turn .rock =
      preRockPlay hand manaAvailable turn .rock + 1 := by
  have hres : choose_play_for hand manaAvailable turn =
      addCastable hand manaAvailable (preRockPlay hand manaAvailable turn)
        (some CardName.rock) := by
    rw [choose_play_for_eq, if_neg hnotone, List.foldl_append]
    rfl
  rw [hres]
  have hinH : ¬ ((hand .rock : Int) - (preRockPlay hand manaAvailable turn
      .rock : Int) < 1) := by
    omega
  have hcast : castable_count_for hand
      (preRockPlay hand manaAvailable turn) .rock manaAvailable = 1 := by
    simp only [castable_count_for]
    rw [if_neg hinH]
    have hcond : (manaProducedOf CardName.rock == 1 &&
        (preRockPlay hand manaAvailable turn).includesNonrock) = true := by
      rw [hnr]
      rfl
    rw [hcond, if_pos rfl, hone]
    simp only [max_playable]
    rw [if_neg (by decide : ¬ cmcOf CardName.rock = 0)]
    rw [show Int.fdiv (1 + 1) (cmcOf CardName.rock) = 1 from rfl]
    omega
  show (preRockPlay hand manaAvailable turn).add .rock
    (castable_count_for hand (preRockPlay hand manaAvailable turn) .rock
      manaAvailable) .rock = _
  rw [hcast]
  simp only [CardBag.add, eq_self_iff_true, if_true]
  omega

/-- A hand with one one-drop and one rock. -/
def handOneSpellOneRock : CardBag :=
  fun x => if x = .c1 then 1 else if x = .rock then 1 else 0

/-- Witness for C4: with 2 mana on turn 5 and a hand of one one-drop and
one rock, the greedy casts leave 1 mana and the returned play-set holds one
more rock than preRockPlay. -/
theorem retroactive_rock_added_witness :
    (¬ ((5 : Nat) = 1 ∧ 0 < earlyPlay handOneSpellOneRock 2 5 .solRing) ∧
        mana_left_for 2 (preRockPlay handOneSpellOneRock 2 5) = 1 ∧
        (2 : Int) ≤ 2 ∧
        preRockPlay handOneSpellOneRock 2 5 .rock < handOneSpellOneRock .rock ∧
        (preRockPlay handOneSpellOneRock 2 5).includesNonrock = true) ∧
      choose_play_for handOneSpellOneRock 2 5 .rock =
        preRockPlay handOneSpellOneRock 2 5 .rock + 1 :=
  ⟨⟨by decide, by decide, by decide, by decide, by decide⟩,
    retroactive_rock_added handOneSpellOneRock 2 5 (by decide) (by decide)
      (by decide) (by decide) (by decide)⟩

/-- round(x, 4) of the optimizer, on exact rationals: round to the nearest
multiple of 1/10000. Python's round on floats is half-to-even while
Mathlib's round is half-up; they differ only when x * 10000 is an exact
half-integer, which no statement below depends on. -/
def round4 (x : ℚ) : ℚ := (round (x * 10000) : ℚ) / 10000

/-- One estimate/sample-count update of the optimizer's evaluate step in
optimal_curve_commander.py (the branch that runs num_simulations games):
average_mana_spent = round(total/num, 4); Number_sims gains num;
Estimation becomes round((prev_estimate * prev_total_sims +
average * num) / Number_sims, 4). -/
def updateEstimate (prevEstimate : ℚ) (prevTotalSims : Nat)
    (batchTotal : ℚ) (numSimulations : Nat) : ℚ × Nat :=
  let averageManaSpent := round4 (batchTotal / numSimulations)
  let newSims := prevTotalSims + numSimulations
  (round4 ((prevEstimate * prevTotalSims +
      averageManaSpent * numSimulations) / newSims), newSims)

theorem round4_eq (x : ℚ) (n : ℤ) (h1 : (n : ℚ) ≤ x * 10000 + 1 / 2)
    (h2 : x * 10000 + 1 / 2 < n + 1) : round4 x = (n : ℚ) / 10000 := by
  rw [round4, round_eq]
  congr 2
  exact Int.floor_eq_iff.mpr ⟨h1, h2⟩

/-- C8 counterexample: a prior estimate of 1 over 1 simulation combined
with a batch of 2 simulations totalling 4 stores 1.6667, not the exact
weighted average 5/3: the source rounds the stored estimate to 4 decimal
places, so exact equality with the weighted-average formula fails. -/
theorem estimate_update_not_exact_average :
    (updateEstimate 1 1 4 2).2 = 1 + 2 ∧
      (updateEstimate 1 1 4 2).1 = 16667 / 10000 ∧
      (16667 / 10000 : ℚ) ≠ (1 * 1 + (4 / 2) * 2) / (1 + 2) := by
  refine ⟨rfl, ?_, by norm_num⟩
  rw [show (updateEstimate 1 1 4 2).1 =
    round4 ((1 * ((1 : Nat) : ℚ) +
      round4 ((4 : ℚ) / ((2 : Nat) : ℚ)) * ((2 : Nat) : ℚ)) /
      (((1 + 2 : Nat)) : ℚ)) from rfl]
  have havg : round4 ((4 : ℚ) / ((2 : Nat) : ℚ)) = 2 := by
    rw [round4_eq ((4 : ℚ) / ((2 : Nat) : ℚ)) 20000 (by push_cast; norm_num)
      (by push_cast; norm_num)]
    norm_num
  rw [havg]
  rw [show ((1 : ℚ) * ((1 : Nat) : ℚ) + 2 * ((2 : Nat) : ℚ)) /
      (((1 + 2 : Nat)) : ℚ) = 5 / 3 by push_cast; norm_num]
  rw [round4_eq (5 / 3 : ℚ) 16667 (by norm_num) (by norm_num)]
  norm_num

theorem abs_round4_sub_le (x : ℚ) : |round4 x - x| ≤ 1 / 20000 := by
  have h : |(round (x * 10000) : ℚ) - x * 10000| ≤ 1 / 2 := by
    rw [abs_sub_comm]
    exact abs_sub_round (x * 10000)
  have h2 : round4 x - x = ((round (x * 10000) : ℚ) - x * 10000) / 10000 := by
    rw [round4]
    ring
  rw [h2, abs_div, show |(10000 : ℚ)| = 10000 by norm_num]
  rw [div_le_div_iff₀ (by norm_num) (by norm_num)]
  linarith

/-- C8 (amended): after a batch of numSimulations games totalling
batchTotal, the memoized sample count increases by exactly numSimulations,
and the memoized estimate is the sample-count-weighted average of the
previous estimate and the (4-decimal rounded) batch average, itself rounded
to 4 decimal places - hence within 1/20000 of the exact weighted average. -/
theorem estimate_update_weighted_average (prevEstimate : ℚ)
    (prevTotalSims : Nat) (batchTotal : ℚ) (numSimulations : Nat)
    (hpos : 0 < numSimulations) :
    (updateEstimate prevEstimate prevTotalSims batchTotal
        numSimulations).2 = prevTotalSims + numSimulations ∧
      (updateEstimate prevEstimate prevTotalSims batchTotal
          numSimulations).1 =
        round4 ((prevEstimate * prevTotalSims +
          round4 (batchTotal / numSimulations) * numSimulations) /
          ((prevTotalSims + numSimulations : Nat) : ℚ)) ∧
      |(updateEstimate prevEstimate prevTotalSims batchTotal
          numSimulations).1 -
        (prevEstimate * prevTotalSims +
          round4 (batchTotal / numSimulations) * numSimulations) /
          ((prevTotalSims + numSimulations : Nat) : ℚ)| ≤ 1 / 20000 :=
  ⟨rfl, rfl, abs_round4_sub_le _⟩

/-- Witness for the amended C8 at a concrete update. -/
theorem estimate_update_weighted_average_witness :
    0 < 1 ∧
      ((updateEstimate 0 0 0 1).2 = 0 + 1 ∧
        (updateEstimate 0 0 0 1).1 =
          round4 ((0 * (0 : Nat) + round4 (0 / (1 : Nat)) * (1 : Nat)) /
            ((0 + 1 : Nat) : ℚ)) ∧
        |(updateEstimate 0 0 0 1).1 -
          (0 * (0 : Nat) + round4 (0 / (1 : Nat)) * (1 : Nat)) /
            ((0 + 1 : Nat) : ℚ)| ≤ 1 / 20000) :=
  ⟨by norm_num, estimate_update_weighted_average 0 0 0 1 (by norm_num)⟩
